import Mathlib

/-!
Shallow embedding of the account lifecycle coordinator from
src/app/src/lib/stores/accounts-store.ts.

The external collaborators (persistent data store, secure credential store,
remote API client, avatar resolver) are modelled as explicit oracle
arguments or as concrete pure stand-ins; the asynchronous methods of the
store are modelled as pure functions from the coordinator state (plus the
oracle results of the external calls they make) to the new state together
with the list of notifications they emit, in emission order.
-/

/-- The data-only email record carried by an account (interface IEmail in
the source). The EmailVisibility enumeration of the API layer is modelled
as a plain string. -/
structure IEmail where
  email : String
  verified : Bool
  primary : Bool
  visibility : String
deriving DecidableEq

/-- Modelled from the spec: the Account value object (models/account.ts is
not among the sources). Fields as in the data model section: login,
endpoint, token (empty meaning no token known), ordered emails, derived
avatarURL, numeric id, display name. Immutable: every change produces a
new instance. -/
structure Account where
  login : String
  endpoint : String
  token : String
  emails : List IEmail
  avatarURL : String
  id : Nat
  name : String
deriving DecidableEq

/-- Modelled from the spec: Account.withToken returns a copy of the
account with only the token replaced. -/
def Account.withToken (a : Account) (t : String) : Account :=
  { a with token := t }

/-- The response shape of api.fetchAccount: id, name and avatar reference. -/
structure APIUser where
  id : Nat
  name : String
  avatar_url : String
deriving DecidableEq

/-- Modelled from the spec: the avatar resolver is an external pure
function of (avatarRef, defaultEmail, endpoint). It is modelled as a
concrete combination of its three arguments so that its calls are
observable in the produced url. -/
def getAvatarWithEnterpriseFallback (avatarRef defaultEmail endpoint : String) : String :=
  avatarRef ++ "|" ++ defaultEmail ++ "|" ++ endpoint

/-- Modelled from the spec: the credential-store key is derived
deterministically from the (login, endpoint) pair (getKeyForAccount in
../auth, not among the sources). -/
def getKeyForAccount (a : Account) : String :=
  a.login ++ "+" ++ a.endpoint

/-- The ways the per-account network refresh (updatedAccount) can fail:
the fatal guard on a missing token, the TypeError raised by reading the
email field of the first entry of an empty fetched email list, and a
network failure of either API call. -/
inductive UpdateErr
  | fatalNoToken
  | typeErrorEmptyEmails
  | network (msg : String)
deriving DecidableEq

/-- updatedAccount from the source. A missing (empty) token trips the
fatalError guard. Otherwise the profile and the email list are fetched
(their outcomes are the two oracle arguments). The source then evaluates
the email field of the first list entry, which on an empty list is a
TypeError; on a non-empty list the default email falls back to the empty
string only when the entry itself has an empty email. The refreshed
account keeps login, endpoint and token, and takes the fetched emails, the
derived avatar url, and the fetched id and name. -/
def updatedAccount (fetchAccount : Except String APIUser)
    (fetchEmails : Except String (List IEmail)) (account : Account) :
    Except UpdateErr Account :=
  if account.token = "" then
    Except.error UpdateErr.fatalNoToken
  else
    match fetchAccount with
    | Except.error e => Except.error (UpdateErr.network e)
    | Except.ok user =>
      match fetchEmails with
      | Except.error e => Except.error (UpdateErr.network e)
      | Except.ok emails =>
        match emails with
        | [] => Except.error UpdateErr.typeErrorEmptyEmails
        | e0 :: _ =>
          let defaultEmail := if e0.email = "" then "" else e0.email
          let avatarURL :=
            getAvatarWithEnterpriseFallback user.avatar_url defaultEmail account.endpoint
          Except.ok
            { login := account.login
              endpoint := account.endpoint
              token := account.token
              emails := emails
              avatarURL := avatarURL
              id := user.id
              name := user.name }

/-- tryUpdateAccount from the source: the refreshed account, or on any
failure the original account unchanged (log and continue). -/
def tryUpdateAccount (fa : Except String APIUser) (fe : Except String (List IEmail))
    (account : Account) : Account :=
  match updatedAccount fa fe account with
  | Except.ok u => u
  | Except.error _ => account

/-- The notifications the store emits: the payload-free did-update event
and the did-error event carrying the failure. -/
inductive Event
  | update
  | error (msg : String)
deriving DecidableEq

/-- Contents of the external credential store: associations from a
(key, username) pair to the stored secret. -/
abbrev Vault := List ((String × String) × String)

/-- Look a secret up in the vault. -/
def lookupSecure (v : Vault) (key user : String) : Option String :=
  (v.find? (fun e => decide (e.1 = (key, user)))).map (fun e => e.2)

/-- Store a secret in the vault, replacing any previous entry for the same
(key, username) pair. -/
def setSecure (v : Vault) (key user secret : String) : Vault :=
  ((key, user), secret) :: v.filter (fun e => decide (e.1 ≠ (key, user)))

/-- Delete the entry for a (key, username) pair from the vault. -/
def deleteSecure (v : Vault) (key user : String) : Vault :=
  v.filter (fun e => decide (e.1 ≠ (key, user)))

/-- The coordinator state: the in-memory account list, the data-store blob
under the key "users" (none models an absent or empty raw string; a stored
JSON array string is modelled by the record list it denotes, so
serialization is the identity on record lists), and the credential-store
vault contents. -/
structure StoreState where
  accounts : List Account
  users : Option (List Account)
  secure : Vault
deriving DecidableEq

/-- The state right after the constructor ran: the in-memory account list
starts empty; the two storage collaborators hold their initial contents. -/
def initialState (users0 : Option (List Account)) (secure0 : Vault) : StoreState :=
  { accounts := [], users := users0, secure := secure0 }

/-- save from the source: map every current account to a copy with the
token forced empty, write the list to the data store under "users", then
emit an update notification. -/
def save (s : StoreState) : StoreState × List Event :=
  ({ s with users := some (s.accounts.map (fun a => a.withToken "")) }, [Event.update])

/-- addAccount from the source, applied after the load gate: attempt the
network refresh, falling back to the caller-supplied account on any
failure; write the token to the credential store (setItemRes is the
outcome of that external call); if the write fails, emit the error and
return without touching the list or the blob; on success append the
(possibly refreshed) account and save. -/
def addAccount (fa : Except String APIUser) (fe : Except String (List IEmail))
    (setItemRes : Except String Unit) (s : StoreState) (account : Account) :
    StoreState × List Event :=
  let updated := tryUpdateAccount fa fe account
  match setItemRes with
  | Except.error e => (s, [Event.error e])
  | Except.ok _ =>
    let s1 := { s with
      secure := setSecure s.secure (getKeyForAccount updated) updated.login updated.token }
    let s2 := { s1 with accounts := s1.accounts ++ [updated] }
    save s2

/-- removeAccount from the source, applied after the load gate: delete the
credential-store entry (deleteItemRes is the outcome of that external
call); if the deletion fails, emit the error and return without touching
the list or the blob; on success drop every account whose id matches and
save. -/
def removeAccount (deleteItemRes : Except String Unit) (s : StoreState)
    (account : Account) : StoreState × List Event :=
  match deleteItemRes with
  | Except.error e => (s, [Event.error e])
  | Except.ok _ =>
    let s1 := { s with
      secure := deleteSecure s.secure (getKeyForAccount account) account.login }
    let s2 := { s1 with accounts := s1.accounts.filter (fun a => decide (a.id ≠ account.id)) }
    save s2

/-- The fan-out inside refresh: tryUpdateAccount is mapped over the list,
each position performing its own pair of API calls, so each position draws
its own network outcome from the oracle net. -/
def refreshList (net : Nat → Except String APIUser × Except String (List IEmail)) :
    Nat → List Account → List Account
  | _, [] => []
  | i, a :: rest => tryUpdateAccount (net i).1 (net i).2 a :: refreshList net (i + 1) rest

/-- refresh from the source. The body does not await the load gate: it
maps tryUpdateAccount over whatever the in-memory list currently is,
installs the results in order, saves, and then emits one more update
notification. -/
def refresh (net : Nat → Except String APIUser × Except String (List IEmail))
    (s : StoreState) : StoreState × List Event :=
  let s1 := { s with accounts := refreshList net 0 s.accounts }
  let r := save s1
  (r.1, r.2 ++ [Event.update])

/-- getAll from the source, applied after the load gate: a defensive copy
of the in-memory list (a copy is the identity in the pure model). -/
def getAll (s : StoreState) : List Account :=
  s.accounts

/-- The per-record loop of loadFromStore: each record becomes an Account
with the token field forced empty; its credential-store key is derived and
the token looked up (lookup key login yields ok (some t), ok none when the
store holds no token, or a store error). On success the account is kept
with the found token (empty string when none); on a store error the record
is skipped, the error is emitted, and the remaining records are still
processed. -/
def loadRecords (lookup : String → String → Except String (Option String)) :
    List Account → List Account × List Event
  | [] => ([], [])
  | record :: rest =>
    let accountWithoutToken := { record with token := "" }
    let key := getKeyForAccount accountWithoutToken
    match lookup key record.login with
    | Except.ok tok =>
      let r := loadRecords lookup rest
      (accountWithoutToken.withToken (tok.getD "") :: r.1, r.2)
    | Except.error e =>
      let r := loadRecords lookup rest
      (r.1, Event.error e :: r.2)

/-- loadFromStore from the source: read the blob under "users". When it is
absent (or the raw string empty) return at once, leaving the state
untouched and emitting nothing. Otherwise process every record, install
the resulting list, and emit the collected lookup errors followed by one
update notification. The data store itself is not written. -/
def loadFromStore (lookup : String → String → Except String (Option String))
    (s : StoreState) : StoreState × List Event :=
  match s.users with
  | none => (s, [])
  | some rawAccounts =>
    let r := loadRecords lookup rawAccounts
    ({ s with accounts := r.1 }, r.2 ++ [Event.update])

/-- getAll invoked immediately after construction: in the source its body
begins with an await of loadingPromise, so it observes the post-load
state. -/
def getAllAfterConstruction (lookup : String → String → Except String (Option String))
    (s0 : StoreState) : List Account :=
  getAll (loadFromStore lookup s0).1

/-- addAccount invoked immediately after construction: in the source its
body begins with an await of loadingPromise, so it runs against the
post-load state. -/
def addAccountAfterConstruction (fa : Except String APIUser)
    (fe : Except String (List IEmail)) (setItemRes : Except String Unit)
    (lookup : String → String → Except String (Option String))
    (s0 : StoreState) (account : Account) : StoreState × List Event :=
  addAccount fa fe setItemRes (loadFromStore lookup s0).1 account

/-- removeAccount invoked immediately after construction: in the source
its body begins with an await of loadingPromise, so it runs against the
post-load state. -/
def removeAccountAfterConstruction (deleteItemRes : Except String Unit)
    (lookup : String → String → Except String (Option String))
    (s0 : StoreState) (account : Account) : StoreState × List Event :=
  removeAccount deleteItemRes (loadFromStore lookup s0).1 account

/-- refresh invoked immediately after construction: in the source its body
does not await loadingPromise, so it runs against the construction-time
state, whose account list is still empty. -/
def refreshAfterConstruction (net : Nat → Except String APIUser × Except String (List IEmail))
    (s0 : StoreState) : StoreState × List Event :=
  refresh net s0

/-- The states reachable from construction followed by the initial load
and any sequence of addAccount, removeAccount and refresh calls, under
arbitrary behaviour of the external collaborators. -/
inductive Reachable : StoreState → Prop
  | loaded (lookup : String → String → Except String (Option String))
      (users0 : Option (List Account)) (secure0 : Vault) :
      Reachable (loadFromStore lookup (initialState users0 secure0)).1
  | add (fa : Except String APIUser) (fe : Except String (List IEmail))
      (res : Except String Unit) (s : StoreState) (a : Account) :
      Reachable s → Reachable (addAccount fa fe res s a).1
  | remove (res : Except String Unit) (s : StoreState) (a : Account) :
      Reachable s → Reachable (removeAccount res s a).1
  | refreshed (net : Nat → Except String APIUser × Except String (List IEmail))
      (s : StoreState) : Reachable s → Reachable (refresh net s).1

/-- A sample email record used in concrete instances. -/
def sampleEmail : IEmail :=
  { email := "a@ex.com", verified := true, primary := true, visibility := "public" }

/-- A sample account with a token. -/
def alice : Account :=
  { login := "alice", endpoint := "e", token := "t", emails := [sampleEmail],
    avatarURL := "u", id := 5, name := "Alice" }

/-- A second sample account with a distinct id. -/
def bob : Account :=
  { login := "bob", endpoint := "e", token := "s", emails := [],
    avatarURL := "v", id := 7, name := "Bob" }

/-! Theorems. -/

/-- C3: addAccount is atomic on credential-store failure: if the
credential-store setItem of the token fails, an error notification is
emitted, the in-memory account list and the persisted blob are both
unchanged (so an account absent before the call is still absent), and no
update notification is emitted. -/
theorem addAccount_atomic_on_failure (fa : Except String APIUser)
    (fe : Except String (List IEmail)) (s : StoreState) (a : Account) (msg : String) :
    (addAccount fa fe (Except.error msg) s a).1.accounts = s.accounts ∧
    (addAccount fa fe (Except.error msg) s a).1.users = s.users ∧
    (addAccount fa fe (Except.error msg) s a).2 = [Event.error msg] ∧
    Event.update ∉ (addAccount fa fe (Except.error msg) s a).2 ∧
    (a ∉ s.accounts → a ∉ (addAccount fa fe (Except.error msg) s a).1.accounts) := by
  refine ⟨rfl, rfl, rfl, ?_, fun h => ?_⟩
  · simp [addAccount]
  · simpa [addAccount] using h

/-- Witness for C3 at a concrete input. -/
theorem addAccount_atomic_on_failure_witness :
    alice ∉ (addAccount (Except.error "net") (Except.error "net") (Except.error "boom")
      (initialState none []) alice).1.accounts :=
  (addAccount_atomic_on_failure (Except.error "net") (Except.error "net")
    (initialState none []) alice "boom").2.2.2.2 (by decide)

/-- C4: removeAccount is atomic on credential-store failure: if the
credential-store deleteItem fails, an error notification is emitted and
the in-memory account list and the persisted metadata blob are exactly as
before the call; no update notification is emitted. -/
theorem removeAccount_atomic_on_failure (s : StoreState) (a : Account) (msg : String) :
    (removeAccount (Except.error msg) s a).1.accounts = s.accounts ∧
    (removeAccount (Except.error msg) s a).1.users = s.users ∧
    (removeAccount (Except.error msg) s a).2 = [Event.error msg] ∧
    Event.update ∉ (removeAccount (Except.error msg) s a).2 := by
  refine ⟨rfl, rfl, rfl, ?_⟩
  simp [removeAccount]

/-- C10: when the credential-store deletion succeeds, removeAccount drops
every in-memory account whose id equals the argument id, keeps every
account with a different id, and preserves the relative order of the kept
accounts (the result is the filter of the original list). -/
theorem removeAccount_removes_all_matching (s : StoreState) (a : Account) :
    (removeAccount (Except.ok ()) s a).1.accounts
        = s.accounts.filter (fun x => decide (x.id ≠ a.id)) ∧
    (∀ x ∈ (removeAccount (Except.ok ()) s a).1.accounts, x.id ≠ a.id) ∧
    (∀ x ∈ s.accounts, x.id ≠ a.id → x ∈ (removeAccount (Except.ok ()) s a).1.accounts) ∧
    (removeAccount (Except.ok ()) s a).1.accounts.Sublist s.accounts := by
  refine ⟨rfl, ?_, ?_, ?_⟩
  · intro x hx
    have hx2 : x ∈ s.accounts.filter (fun x => decide (x.id ≠ a.id)) := hx
    exact of_decide_eq_true (List.mem_filter.mp hx2).2
  · intro x hx hne
    show x ∈ s.accounts.filter (fun x => decide (x.id ≠ a.id))
    exact List.mem_filter.mpr ⟨hx, decide_eq_true hne⟩
  · exact List.filter_sublist s.accounts

/-- Witness for C10 at a concrete input: removing alice from a list that
holds two distinct accounts with id 5 and bob with id 7 keeps bob and
leaves no account with id 5. -/
theorem removeAccount_removes_all_matching_witness :
    bob ∈ (removeAccount (Except.ok ())
        { accounts := [{ alice with name := "A0", token := "" }, bob, alice],
          users := none, secure := [] } alice).1.accounts ∧
    (∀ x ∈ (removeAccount (Except.ok ())
        { accounts := [{ alice with name := "A0", token := "" }, bob, alice],
          users := none, secure := [] } alice).1.accounts, x.id ≠ alice.id) :=
  ⟨(removeAccount_removes_all_matching
      { accounts := [{ alice with name := "A0", token := "" }, bob, alice],
        users := none, secure := [] } alice).2.2.1 bob (by decide) (by decide),
   (removeAccount_removes_all_matching
      { accounts := [{ alice with name := "A0", token := "" }, bob, alice],
        users := none, secure := [] } alice).2.1⟩

/-- A pre-load state whose stored blob holds one record. -/
def preState : StoreState :=
  initialState (some [{ alice with token := "" }]) []

/-- A credential-store oracle that always finds the token "t". -/
def lookupT : String → String → Except String (Option String) :=
  fun _ _ => Except.ok (some "t")

/-- A network oracle on which every API call fails. -/
def netDown : Nat → Except String APIUser × Except String (List IEmail) :=
  fun _ => (Except.error "down", Except.error "down")

/-- C1 counterexample: a refresh call made immediately after construction
does not observe the post-load state. With a stored blob of one record,
the gated getAll observes one loaded account, while refresh runs on the
still-empty pre-load list: it observes no accounts and persists the empty
list over the stored blob. -/
theorem c1_refresh_not_gated_counterexample :
    (refreshAfterConstruction netDown preState).1.accounts = [] ∧
    (refreshAfterConstruction netDown preState).1.users = some [] ∧
    getAllAfterConstruction lookupT preState ≠ [] := by
  refine ⟨rfl, rfl, ?_⟩
  decide

/-- C1 amended: getAll, addAccount and removeAccount await the load gate,
so called immediately after construction they run against the post-load
state; refresh does not await it, so called immediately after
construction it runs against the still-empty construction-time list and
persists the empty list. -/
theorem load_gate_per_operation
    (lookup : String → String → Except String (Option String))
    (net : Nat → Except String APIUser × Except String (List IEmail))
    (fa : Except String APIUser) (fe : Except String (List IEmail))
    (res : Except String Unit) (users0 : Option (List Account)) (secure0 : Vault)
    (a : Account) :
    getAllAfterConstruction lookup (initialState users0 secure0)
        = getAll (loadFromStore lookup (initialState users0 secure0)).1 ∧
    addAccountAfterConstruction fa fe res lookup (initialState users0 secure0) a
        = addAccount fa fe res (loadFromStore lookup (initialState users0 secure0)).1 a ∧
    removeAccountAfterConstruction res lookup (initialState users0 secure0) a
        = removeAccount res (loadFromStore lookup (initialState users0 secure0)).1 a ∧
    (refreshAfterConstruction net (initialState users0 secure0)).1.accounts = [] ∧
    (refreshAfterConstruction net (initialState users0 secure0)).1.users = some [] :=
  ⟨rfl, rfl, rfl, rfl, rfl⟩

/-- C2: with a non-empty token and a fetch that returns an empty email
list, the source evaluates the email field of the first entry of an empty
array: updatedAccount raises a TypeError instead of defaulting the email
to the empty string and producing an updated Account. -/
theorem updatedAccount_empty_emails_raises :
    updatedAccount (Except.ok { id := 9, name := "Alice", avatar_url := "av" })
        (Except.ok ([] : List IEmail)) alice
      = Except.error UpdateErr.typeErrorEmptyEmails := by
  rfl

/-- A stored blob whose single record carries a non-empty token field, so
that the blob differs observably from its token-stripped form. -/
def blobWithTokenField : List Account :=
  [{ alice with token := "x" }]

/-- C8 counterexample: after the initial load the persist step has not
run: the data-store blob is left exactly as it was (its record still
carries the token field "x"), and differs from the token-stripped form of
the freshly loaded in-memory list, even though the update notification was
emitted. -/
theorem c8_no_persist_after_load_counterexample :
    (loadFromStore lookupT (initialState (some blobWithTokenField) [])).1.users
        = some blobWithTokenField ∧
    (loadFromStore lookupT (initialState (some blobWithTokenField) [])).1.users
      ≠ some ((loadFromStore lookupT
          (initialState (some blobWithTokenField) [])).1.accounts.map
            (fun x => x.withToken "")) ∧
    Event.update ∈ (loadFromStore lookupT (initialState (some blobWithTokenField) [])).2 := by
  refine ⟨rfl, ?_, ?_⟩ <;> decide

/-- C8 amended: the persist step (write the token-stripped list to the
data store under "users" and emit an update notification) runs after
every successful mutation of the account list by addAccount, removeAccount
and refresh; after the initial load only the update notification is
emitted and the data store is not rewritten. -/
theorem persist_after_mutations_not_after_load (fa : Except String APIUser)
    (fe : Except String (List IEmail))
    (net : Nat → Except String APIUser × Except String (List IEmail))
    (lookup : String → String → Except String (Option String))
    (s : StoreState) (a : Account) :
    ((addAccount fa fe (Except.ok ()) s a).1.users
        = some ((addAccount fa fe (Except.ok ()) s a).1.accounts.map (fun x => x.withToken ""))
      ∧ Event.update ∈ (addAccount fa fe (Except.ok ()) s a).2) ∧
    ((removeAccount (Except.ok ()) s a).1.users
        = some ((removeAccount (Except.ok ()) s a).1.accounts.map (fun x => x.withToken ""))
      ∧ Event.update ∈ (removeAccount (Except.ok ()) s a).2) ∧
    ((refresh net s).1.users
        = some ((refresh net s).1.accounts.map (fun x => x.withToken ""))
      ∧ Event.update ∈ (refresh net s).2) ∧
    (loadFromStore lookup s).1.users = s.users := by
  refine ⟨⟨rfl, ?_⟩, ⟨rfl, ?_⟩, ⟨rfl, ?_⟩, ?_⟩
  · simp [addAccount, save]
  · simp [removeAccount, save]
  · simp [refresh, save]
  · unfold loadFromStore
    cases h : s.users with
    | none => exact h
    | some l => rfl

/-- Every member of a token-stripped list has an empty token. -/
theorem token_stripped (xs : List Account) (r : Account)
    (hr : r ∈ xs.map (fun x => x.withToken "")) : r.token = "" := by
  rcases List.mem_map.mp hr with ⟨x, _, rfl⟩
  rfl

/-- The network refresh never changes the identity fields: whatever the
oracle outcomes, tryUpdateAccount preserves login, endpoint and token. -/
theorem tryUpdateAccount_key_fields (fa : Except String APIUser)
    (fe : Except String (List IEmail)) (a : Account) :
    (tryUpdateAccount fa fe a).login = a.login ∧
    (tryUpdateAccount fa fe a).endpoint = a.endpoint ∧
    (tryUpdateAccount fa fe a).token = a.token := by
  unfold tryUpdateAccount updatedAccount
  by_cases h : a.token = ""
  · simp [h]
  · simp only [if_neg h]
    cases fa with
    | error e => simp
    | ok user =>
      cases fe with
      | error e => simp
      | ok emails =>
        cases emails with
        | nil => simp
        | cons e0 rest => simp

/-- A secret just stored in the vault is found under its key and user. -/
theorem lookupSecure_setSecure (v : Vault) (k u t : String) :
    lookupSecure (setSecure v k u t) k u = some t := by
  simp [lookupSecure, setSecure]

/-- C5: token/metadata separation: whenever add, remove or refresh writes
the account list to the data store under "users", every serialized record
has an empty token, whatever tokens are held in memory; and after a
successful addAccount the real token is in the credential store under the
key derived from (login, endpoint) with the login as username. -/
theorem token_metadata_separation (fa : Except String APIUser)
    (fe : Except String (List IEmail))
    (net : Nat → Except String APIUser × Except String (List IEmail))
    (s : StoreState) (a : Account) :
    (∀ l, (addAccount fa fe (Except.ok ()) s a).1.users = some l →
      ∀ r ∈ l, r.token = "") ∧
    (∀ l, (removeAccount (Except.ok ()) s a).1.users = some l →
      ∀ r ∈ l, r.token = "") ∧
    (∀ l, (refresh net s).1.users = some l → ∀ r ∈ l, r.token = "") ∧
    lookupSecure (addAccount fa fe (Except.ok ()) s a).1.secure
        (getKeyForAccount a) a.login
      = some a.token := by
  refine ⟨?_, ?_, ?_, ?_⟩
  · intro l hl r hr
    have hl2 : some ((s.accounts ++ [tryUpdateAccount fa fe a]).map
        (fun x => x.withToken "")) = some l := hl
    have hleq := Option.some.inj hl2
    subst hleq
    exact token_stripped _ r hr
  · intro l hl r hr
    have hl2 : some ((s.accounts.filter (fun x => decide (x.id ≠ a.id))).map
        (fun x => x.withToken "")) = some l := hl
    have hleq := Option.some.inj hl2
    subst hleq
    exact token_stripped _ r hr
  · intro l hl r hr
    have hl2 : some ((refreshList net 0 s.accounts).map
        (fun x => x.withToken "")) = some l := hl
    have hleq := Option.some.inj hl2
    subst hleq
    exact token_stripped _ r hr
  · show lookupSecure (setSecure s.secure (getKeyForAccount (tryUpdateAccount fa fe a))
        (tryUpdateAccount fa fe a).login (tryUpdateAccount fa fe a).token)
        (getKeyForAccount a) a.login = some a.token
    obtain ⟨h1, h2, h3⟩ := tryUpdateAccount_key_fields fa fe a
    have hk : getKeyForAccount (tryUpdateAccount fa fe a) = getKeyForAccount a := by
      simp [getKeyForAccount, h1, h2]
    rw [hk, h1, h3]
    exact lookupSecure_setSecure s.secure (getKeyForAccount a) a.login a.token

/-- Witness for C5 at a concrete input. -/
theorem token_metadata_separation_witness :
    (Account.withToken alice "").token = "" ∧
    lookupSecure (addAccount (Except.error "net") (Except.error "net") (Except.ok ())
        (initialState none []) alice).1.secure (getKeyForAccount alice) alice.login
      = some alice.token :=
  ⟨(token_metadata_separation (Except.error "net") (Except.error "net") netDown
      (initialState none []) alice).1 [Account.withToken alice ""] rfl
      (Account.withToken alice "") (by decide),
   (token_metadata_separation (Except.error "net") (Except.error "net") netDown
      (initialState none []) alice).2.2.2⟩

/-- refreshList preserves the length of the list. -/
theorem refreshList_length (net : Nat → Except String APIUser × Except String (List IEmail))
    (k : Nat) (l : List Account) :
    (refreshList net k l).length = l.length := by
  induction l generalizing k with
  | nil => rfl
  | cons a rest ih => simp [refreshList, ih]

/-- refreshList acts position by position: entry i of the result is
tryUpdateAccount applied to entry i of the input, drawing the network
outcome of position k + i. -/
theorem refreshList_get (net : Nat → Except String APIUser × Except String (List IEmail))
    (k : Nat) (l : List Account) (i : Nat)
    (h : i < l.length) (h2 : i < (refreshList net k l).length) :
    (refreshList net k l).get ⟨i, h2⟩
      = tryUpdateAccount (net (k + i)).1 (net (k + i)).2 (l.get ⟨i, h⟩) := by
  induction l generalizing k i with
  | nil => exact absurd h (Nat.not_lt_zero i)
  | cons a rest ih =>
    cases i with
    | zero => rfl
    | succ j =>
      have hj : j < rest.length := Nat.lt_of_succ_lt_succ h
      have hj2 : j < (refreshList net (k + 1) rest).length := by
        rw [refreshList_length]
        exact hj
      have hrec := ih (k + 1) j hj hj2
      have harith : k + 1 + j = k + (j + 1) := by omega
      rw [harith] at hrec
      exact hrec

/-- C6: per-account refresh fall-back: after refresh the list has the same
length and order; each position holds the network-updated account when its
own fetch succeeded and the unchanged original account when it failed, so
one failure never removes or alters any other account; and the update
notification is emitted even when every refresh fell back. -/
theorem refresh_per_account_fallback
    (net : Nat → Except String APIUser × Except String (List IEmail)) (s : StoreState) :
    (refresh net s).1.accounts.length = s.accounts.length ∧
    (∀ i (h : i < s.accounts.length) (h2 : i < (refresh net s).1.accounts.length),
      (refresh net s).1.accounts.get ⟨i, h2⟩ =
        match updatedAccount (net i).1 (net i).2 (s.accounts.get ⟨i, h⟩) with
        | Except.ok u => u
        | Except.error _ => s.accounts.get ⟨i, h⟩) ∧
    Event.update ∈ (refresh net s).2 := by
  refine ⟨?_, ?_, ?_⟩
  · show (refreshList net 0 s.accounts).length = s.accounts.length
    exact refreshList_length net 0 s.accounts
  · intro i h h2
    have h2a : i < (refreshList net 0 s.accounts).length := h2
    have hg := refreshList_get net 0 s.accounts i h h2a
    rw [Nat.zero_add] at hg
    exact hg
  · simp [refresh, save]

/-- Witness for C6 at a concrete input: with the network down, position 0
of the refreshed list is the unchanged original account, and the update
notification is still emitted. -/
theorem refresh_per_account_fallback_witness :
    (refresh netDown { accounts := [alice], users := none, secure := [] }).1.accounts.get
        ⟨0, by decide⟩ = alice ∧
    Event.update ∈ (refresh netDown { accounts := [alice], users := none, secure := [] }).2 := by
  constructor
  · exact (refresh_per_account_fallback netDown
      { accounts := [alice], users := none, secure := [] }).2.1 0 (by decide) (by decide)
  · exact (refresh_per_account_fallback netDown
      { accounts := [alice], users := none, secure := [] }).2.2

/-- The declarative form of the per-record load loop: a record survives,
carrying the looked-up token (empty when the store holds none), exactly
when its credential lookup succeeds; each failed lookup contributes its
error event; order is preserved on both sides. -/
theorem loadRecords_characterization
    (lookup : String → String → Except String (Option String)) (records : List Account) :
    (loadRecords lookup records).1 = records.filterMap (fun record =>
        match lookup (getKeyForAccount { record with token := "" }) record.login with
        | Except.ok tok => some (Account.withToken { record with token := "" } (tok.getD ""))
        | Except.error _ => none) ∧
    (loadRecords lookup records).2 = records.filterMap (fun record =>
        match lookup (getKeyForAccount { record with token := "" }) record.login with
        | Except.ok _ => none
        | Except.error e => some (Event.error e)) := by
  induction records with
  | nil => exact ⟨rfl, rfl⟩
  | cons record rest ih =>
    cases hlk : lookup (getKeyForAccount { record with token := "" }) record.login with
    | ok tok =>
      refine ⟨?_, ?_⟩ <;>
        simp [loadRecords, hlk, ih.1, ih.2, List.filterMap_cons]
    | error e =>
      refine ⟨?_, ?_⟩ <;>
        simp [loadRecords, hlk, ih.1, ih.2, List.filterMap_cons]

/-- C7: initial-load fault isolation: when the stored blob holds a record
list, the loaded in-memory list keeps exactly the records whose
credential lookup succeeded (token forced empty, then set to the found
token or the empty string when the store holds none); a record whose
lookup fails with a store error is skipped while every other record is
still processed, and an error notification carrying that failure is
emitted. -/
theorem load_fault_isolation
    (lookup : String → String → Except String (Option String))
    (s : StoreState) (records : List Account) (hs : s.users = some records) :
    (loadFromStore lookup s).1.accounts = records.filterMap (fun record =>
        match lookup (getKeyForAccount { record with token := "" }) record.login with
        | Except.ok tok => some (Account.withToken { record with token := "" } (tok.getD ""))
        | Except.error _ => none) ∧
    (loadFromStore lookup s).2 = (records.filterMap (fun record =>
        match lookup (getKeyForAccount { record with token := "" }) record.login with
        | Except.ok _ => none
        | Except.error e => some (Event.error e))) ++ [Event.update] ∧
    (∀ record ∈ records, ∀ e,
      lookup (getKeyForAccount { record with token := "" }) record.login = Except.error e →
      Event.error e ∈ (loadFromStore lookup s).2) := by
  have hchar := loadRecords_characterization lookup records
  have hload : loadFromStore lookup s
      = ({ s with accounts := (loadRecords lookup records).1 },
         (loadRecords lookup records).2 ++ [Event.update]) := by
    unfold loadFromStore
    rw [hs]
  refine ⟨?_, ?_, ?_⟩
  · rw [hload]
    exact hchar.1
  · rw [hload]
    rw [hchar.2]
  · intro record hrec e hlk
    rw [hload]
    refine List.mem_append_left _ ?_
    rw [hchar.2]
    refine List.mem_filterMap.mpr ⟨record, hrec, ?_⟩
    rw [hlk]

/-- A credential-store oracle that fails for the user bob and finds the
token "t" for everyone else. -/
def lookupBobFails : String → String → Except String (Option String) :=
  fun _ user => if user = "bob" then Except.error "vault down" else Except.ok (some "t")

/-- Witness for C7 at a concrete input: loading a blob with alice and bob
while the vault fails for bob emits the error notification carrying the
failure, loads alice with her token, and skips bob. -/
theorem load_fault_isolation_witness :
    Event.error "vault down" ∈ (loadFromStore lookupBobFails
      { accounts := [], users := some [alice, bob], secure := [] }).2 ∧
    (loadFromStore lookupBobFails
      { accounts := [], users := some [alice, bob], secure := [] }).1.accounts
      = [{ alice with token := "t" }] :=
  ⟨(load_fault_isolation lookupBobFails
      { accounts := [], users := some [alice, bob], secure := [] } [alice, bob] rfl).2.2
      bob (by decide) "vault down" rfl,
   by
    have h := (load_fault_isolation lookupBobFails
      { accounts := [], users := some [alice, bob], secure := [] } [alice, bob] rfl).1
    rw [h]
    decide⟩

/-- The duplicate-id state reached by loading an empty data store and then
adding the same account twice while the network is down and the credential
store accepts both writes. -/
def dupState : StoreState :=
  (addAccount (Except.error "net") (Except.error "net") (Except.ok ())
    (addAccount (Except.error "net") (Except.error "net") (Except.ok ())
      (loadFromStore lookupT (initialState none [])).1 alice).1 alice).1

/-- C9 counterexample: a state with two accounts of the same id is
reachable by load followed by two addAccount calls with the same account,
so the no-duplicate-id invariant does not hold in every reachable state
and addAccount does not preserve it. -/
theorem c9_duplicate_id_counterexample :
    Reachable dupState ∧ ¬ (dupState.accounts.map (fun x => x.id)).Nodup := by
  constructor
  · exact Reachable.add _ _ _ _ _
      (Reachable.add _ _ _ _ _ (Reachable.loaded lookupT none []))
  · decide

/-- C9 amended: addAccount appends the (possibly network-refreshed)
account unconditionally: on a successful credential write the new list is
the old list with that account appended, even when its id is already
present, in which case the resulting list holds a duplicate id. -/
theorem addAccount_appends_unconditionally (fa : Except String APIUser)
    (fe : Except String (List IEmail)) (s : StoreState) (a : Account) :
    (addAccount fa fe (Except.ok ()) s a).1.accounts
        = s.accounts ++ [tryUpdateAccount fa fe a] ∧
    ((tryUpdateAccount fa fe a).id ∈ s.accounts.map (fun x => x.id) →
      ¬ ((addAccount fa fe (Except.ok ()) s a).1.accounts.map (fun x => x.id)).Nodup) := by
  refine ⟨rfl, ?_⟩
  intro hmem hnodup
  have hmap : ((s.accounts ++ [tryUpdateAccount fa fe a]).map (fun x => x.id)).Nodup := hnodup
  rw [List.map_append] at hmap
  have hdisj := (List.nodup_append.mp hmap).2.2
  exact hdisj hmem (by simp)

/-- Witness for the amended C9 at a concrete input: adding alice on top of
a list already holding alice yields duplicate ids. -/
theorem addAccount_appends_unconditionally_witness :
    ¬ ((addAccount (Except.error "net") (Except.error "net") (Except.ok ())
        { accounts := [alice], users := none, secure := [] } alice).1.accounts.map
          (fun x => x.id)).Nodup :=
  (addAccount_appends_unconditionally (Except.error "net") (Except.error "net")
    { accounts := [alice], users := none, secure := [] } alice).2 (by decide)
